import Mathlib

/-!
Shallow embedding of the feed-ingestion pipeline of `src/hooks/useNewsFeeds.js`
(the "AI Pulse" news aggregator): the feed parser `parseRSSItems`, the proxy
fetcher `fetchWithProxy`, and the aggregation / state-update routine `fetchNews`
of the `useNewsFeeds` hook, together with the static configuration
(`RSS_SOURCES`, `getFallbackArticles`).

Modelling conventions:
* JS strings are Lean `String`s; `slice(0, n)` and `toLowerCase()` are modelled
  character-wise (`jsSlice`, `jsToLower`), which agrees with the JS code-unit
  semantics on the basic-plane text the app handles.
* A DOM query `el.querySelector(t)?.textContent?.trim()` is abstracted as an
  `Option String` field holding the trimmed text (`none` when the child is
  absent); `DOMParser.parseFromString` plus the `querySelectorAll` calls are
  abstracted as a host function `parseXML : String → XMLDoc`.
* `new Date(s)` is abstracted as a host function `parseDate : String → Option Int`
  returning the epoch-milliseconds timestamp, with `none` standing for a JS
  Invalid Date (time value NaN); `new Date()` is the parameter `now : Int`.
* HTML stripping through a detached `div` is the host parameter
  `stripHTML : String → String` (it maps `""` to `""`).
* JS exceptions absorbed by `try`/`catch` are modelled with `Except`.
-/

/-- FeedSource record: one entry of the hard-coded `RSS_SOURCES` configuration. -/
structure Source where
  name : String
  url : String
  category : String
  color : String
deriving DecidableEq

/-- The fixed `RSS_SOURCES` list of five feed sources. -/
def RSS_SOURCES : List Source :=
  [ { name := "TechCrunch AI",
      url := "https://techcrunch.com/category/artificial-intelligence/feed/",
      category := "Industry", color := "#10b981" },
    { name := "The Verge AI",
      url := "https://www.theverge.com/rss/ai-artificial-intelligence/index.xml",
      category := "Industry", color := "#8b5cf6" },
    { name := "MIT Tech Review",
      url := "https://www.technologyreview.com/feed/",
      category := "Research", color := "#ec4899" },
    { name := "Ars Technica AI",
      url := "https://feeds.arstechnica.com/arstechnica/technology-lab",
      category := "Tools", color := "#f59e0b" },
    { name := "VentureBeat AI",
      url := "https://venturebeat.com/category/ai/feed/",
      category := "Industry", color := "#06b6d4" } ]

/-- An RSS 2.0 `item` element as the parser reads it: each field is the trimmed
text content of the first matching child element, `none` when absent. -/
structure RSSItem where
  title : Option String
  link : Option String
  pubDate : Option String
  description : Option String
deriving DecidableEq

/-- An Atom `entry` element as the parser reads it. `linkHref` is the raw
`href` attribute of the first `link[href]` child (not trimmed); the other
fields are trimmed text contents, `none` when the child is absent. -/
structure AtomEntry where
  title : Option String
  linkHref : Option String
  published : Option String
  updated : Option String
  summary : Option String
  content : Option String
deriving DecidableEq

/-- The abstraction of a DOM document produced by `DOMParser.parseFromString`:
the `item` elements and the `entry` elements found by `querySelectorAll`,
in document order. -/
structure XMLDoc where
  items : List RSSItem
  entries : List AtomEntry
deriving DecidableEq

/-- A normalized article record, as pushed by `parseRSSItems` and as stored in
the hook state. `pubDate` is an epoch-milliseconds timestamp, `none` standing
for a JS Invalid Date. -/
structure Article where
  title : String
  link : String
  pubDate : Option Int
  description : String
  source : String
  category : String
  color : String
deriving DecidableEq

/-- JS truthiness of a possibly-absent string (`undefined` and `""` are falsy). -/
def truthy : Option String → Bool
  | some s => !s.isEmpty
  | none => false

/-- JS `a || b` on possibly-absent strings: yields `a` when `a` is truthy,
otherwise `b`. -/
def jsOr (a b : Option String) : Option String :=
  if truthy a then a else b

/-- JS coalescing `a || ""` of a possibly-absent string to the empty string. -/
def jsOrEmpty (a : Option String) : String :=
  if truthy a then a.getD "" else ""

/-- JS `s.slice(0, n)`: the first `n` characters of `s`. -/
def jsSlice (n : Nat) (s : String) : String :=
  ⟨s.data.take n⟩

/-- JS `s.toLowerCase()`, modelled character-wise. -/
def jsToLower (s : String) : String :=
  ⟨s.data.map Char.toLower⟩

/-- The body of the RSS 2.0 `forEach` loop of `parseRSSItems`: one `item`
either yields a pushed article (`title` and `link` both truthy) or nothing.
`pubDate` is `new Date(pubDate)` when the pubDate text is truthy, else
`new Date()` (the parameter `now`); the description is HTML-stripped and
sliced to 200 characters. -/
def rssItemToArticle (parseDate : String → Option Int) (stripHTML : String → String)
    (now : Int) (source : Source) (item : RSSItem) : Option Article :=
  if truthy item.title && truthy item.link then
    some { title := item.title.getD ""
           link := item.link.getD ""
           pubDate := if truthy item.pubDate then parseDate (item.pubDate.getD "")
                      else some now
           description := jsSlice 200 (stripHTML (jsOrEmpty item.description))
           source := source.name
           category := source.category
           color := source.color }
  else none

/-- The body of the Atom `forEach` loop of `parseRSSItems`: the timestamp text
is `published || updated`, the body text is `summary || content`, and the entry
yields an article exactly when `title` and the `link[href]` attribute are
truthy. -/
def atomEntryToArticle (parseDate : String → Option Int) (stripHTML : String → String)
    (now : Int) (source : Source) (entry : AtomEntry) : Option Article :=
  let published := jsOr entry.published entry.updated
  let summary := jsOr entry.summary entry.content
  if truthy entry.title && truthy entry.linkHref then
    some { title := entry.title.getD ""
           link := entry.linkHref.getD ""
           pubDate := if truthy published then parseDate (published.getD "")
                      else some now
           description := jsSlice 200 (stripHTML (jsOrEmpty summary))
           source := source.name
           category := source.category
           color := source.color }
  else none

/-- The articles pushed by the RSS 2.0 loop of `parseRSSItems`, in document
order. -/
def rssArticles (parseDate : String → Option Int) (stripHTML : String → String)
    (now : Int) (source : Source) (items : List RSSItem) : List Article :=
  items.filterMap (rssItemToArticle parseDate stripHTML now source)

/-- The articles pushed by the Atom loop of `parseRSSItems`, in document
order. -/
def atomArticles (parseDate : String → Option Int) (stripHTML : String → String)
    (now : Int) (source : Source) (entries : List AtomEntry) : List Article :=
  entries.filterMap (atomEntryToArticle parseDate stripHTML now source)

/-- `parseRSSItems(xmlText, source)`: parse the text as XML, run the RSS 2.0
loop; if it pushed nothing (`items.length === 0`), run the Atom loop instead;
finally `items.slice(0, 8)`. -/
def parseRSSItems (parseXML : String → XMLDoc) (parseDate : String → Option Int)
    (stripHTML : String → String) (now : Int) (xmlText : String) (source : Source) :
    List Article :=
  let xml := parseXML xmlText
  let items := rssArticles parseDate stripHTML now source xml.items
  let items2 := if items.isEmpty then atomArticles parseDate stripHTML now source xml.entries
                else items
  items2.take 8

/-- The outcome of one proxy attempt inside `fetchWithProxy`: an HTTP 2xx
response with a body (`res.ok`), a non-2xx response, or a thrown fetch error
(network failure or the 8-second `AbortSignal.timeout`). -/
inductive ProxyResult where
  | ok (body : String)
  | notOk
  | netError
deriving DecidableEq

/-- Whether a proxy attempt succeeded with HTTP 2xx. -/
def ProxyResult.isOk : ProxyResult → Bool
  | .ok _ => true
  | _ => false

/-- `fetchWithProxy(url)`: try the proxies in order, one request each; return
the body text of the first `res.ok` response, absorbing thrown errors and
non-2xx responses; return `null` (`none`) when every proxy fails. The argument
lists the per-proxy outcomes in the order `CORS_PROXIES` is iterated. -/
def fetchWithProxy : List ProxyResult → Option String
  | [] => none
  | .ok body :: _ => some body
  | .notOk :: rest => fetchWithProxy rest
  | .netError :: rest => fetchWithProxy rest

/-- The JS sort comparator `(a, b) => b.pubDate - a.pubDate`, read as the test
"does `b` sort strictly before `a`" (comparator value strictly positive). An
Invalid Date coerces to NaN, and per ECMAScript SortCompare a NaN comparator
value counts as 0, so an invalid date is never strictly greater. -/
def dateGtB : Option Int → Option Int → Bool
  | some x, some y => decide (y < x)
  | _, _ => false

/-- Descending non-strict comparison of two publish timestamps (both valid and
the first at least the second). -/
def dateGeB : Option Int → Option Int → Bool
  | some x, some y => decide (y ≤ x)
  | _, _ => false

/-- Stable insertion step of the descending sort: the incoming article `a` is
placed before the first already-placed article that does not sort strictly
before it, preserving the original relative order of equal keys. -/
def insertByDateDesc (a : Article) : List Article → List Article
  | [] => [a]
  | b :: rest =>
    if dateGtB b.pubDate a.pubDate then b :: insertByDateDesc a rest
    else a :: b :: rest

/-- `allArticles.sort((a, b) => b.pubDate - a.pubDate)`: a stable sort by
publish timestamp descending (ECMAScript pins the sorted, stable result for a
consistent comparator; this insertion sort realizes it). -/
def sortByDateDesc : List Article → List Article
  | [] => []
  | a :: rest => insertByDateDesc a (sortByDateDesc rest)

/-- The deduplication key: `article.title.toLowerCase().slice(0, 50)`. -/
def dedupeKey (a : Article) : String :=
  jsSlice 50 (jsToLower a.title)

/-- The `allArticles.filter` pass with the `seen` set, `seen` accumulated as a
list of keys already encountered. -/
def dedupeAux (seen : List String) : List Article → List Article
  | [] => []
  | a :: rest =>
    if dedupeKey a ∈ seen then dedupeAux seen rest
    else a :: dedupeAux (dedupeKey a :: seen) rest

/-- Deduplication by the 50-character lowercase title prefix, keeping the first
occurrence of each key. -/
def dedupe : List Article → List Article :=
  dedupeAux []

/-- The settlement status of one per-source task, as reported by
`Promise.allSettled`. -/
inductive Settled (α : Type) where
  | fulfilled (value : α)
  | rejected
deriving DecidableEq

/-- The filter of `results` keeping those whose status is fulfilled, followed
by reading each `r.value`. -/
def collectFulfilled (results : List (Settled (List Article))) : List (List Article) :=
  results.filterMap fun r =>
    match r with
    | .fulfilled v => some v
    | .rejected => none

/-- The `allArticles` value of `fetchNews`: fulfilled per-source lists
flattened and sorted by publish time descending. -/
def allArticlesOf (results : List (Settled (List Article))) : List Article :=
  sortByDateDesc (collectFulfilled results).flatten

/-- The `unique` value of `fetchNews`: the sorted flattened articles after
deduplication. -/
def aggregate (results : List (Settled (List Article))) : List Article :=
  dedupe (allArticlesOf results)

/-- The static curated list returned by `getFallbackArticles`, eleven articles
with publish times `now`, `now - 3600000`, …, `now - 36000000`. -/
def getFallbackArticles (now : Int) : List Article :=
  [ { title := "OpenAI Announces GPT-5 With Enhanced Reasoning Capabilities",
      link := "https://techcrunch.com/category/artificial-intelligence/",
      pubDate := some now,
      description := "The latest model from OpenAI brings significant improvements to multi-step reasoning, code generation, and real-time data analysis capabilities.",
      source := "TechCrunch AI", category := "Industry", color := "#10b981" },
    { title := "Google DeepMind Achieves Breakthrough in Protein Structure Prediction",
      link := "https://www.technologyreview.com/",
      pubDate := some (now - 3600000),
      description := "The research lab\u0027s latest AlphaFold model can now predict protein interactions with near-experimental accuracy, opening new doors for drug discovery.",
      source := "MIT Tech Review", category := "Research", color := "#ec4899" },
    { title := "Microsoft Invests $10B in New AI-Optimized Data Center Network",
      link := "https://www.theverge.com/ai-artificial-intelligence",
      pubDate := some (now - 7200000),
      description := "The new data centers will feature custom-designed AI accelerators and advanced cooling systems to support next-generation AI workloads.",
      source := "The Verge AI", category := "Data Centers", color := "#8b5cf6" },
    { title := "Anthropic Releases Claude with Advanced Tool Use and Computer Control",
      link := "https://venturebeat.com/category/ai/",
      pubDate := some (now - 10800000),
      description := "Claude can now interact with desktop applications, browse the web, and execute complex multi-step tasks autonomously.",
      source := "VentureBeat AI", category := "Tools", color := "#06b6d4" },
    { title := "NVIDIA Unveils Next-Gen Blackwell Ultra GPUs for AI Training",
      link := "https://arstechnica.com/ai/",
      pubDate := some (now - 14400000),
      description := "The new B300 GPUs deliver 4x performance improvement over previous generation, targeting enterprise AI training and inference workloads.",
      source := "Ars Technica AI", category := "Data Centers", color := "#f59e0b" },
    { title := "Meta Open-Sources Llama 4 with Mixture-of-Experts Architecture",
      link := "https://techcrunch.com/category/artificial-intelligence/",
      pubDate := some (now - 18000000),
      description := "The fully open-source model matches proprietary models in benchmarks while being significantly more efficient to run on consumer hardware.",
      source := "TechCrunch AI", category := "Industry", color := "#10b981" },
    { title := "Cursor and GitHub Copilot Battle for AI Coding Tool Supremacy",
      link := "https://www.theverge.com/ai-artificial-intelligence",
      pubDate := some (now - 21600000),
      description := "AI-powered coding assistants are transforming software development, with new features like multi-file editing and autonomous debugging.",
      source := "The Verge AI", category := "Tools", color := "#8b5cf6" },
    { title := "EU AI Act Enforcement Begins: What Companies Need to Know",
      link := "https://www.technologyreview.com/",
      pubDate := some (now - 25200000),
      description := "New regulations mandate transparency, risk assessments, and human oversight for high-risk AI systems deployed in the European Union.",
      source := "MIT Tech Review", category := "Industry", color := "#ec4899" },
    { title := "Perplexity AI Raises $500M, Aims to Replace Traditional Search",
      link := "https://venturebeat.com/category/ai/",
      pubDate := some (now - 28800000),
      description := "The AI-powered search engine now processes over 100 million queries per day, directly challenging Google\u0027s search dominance.",
      source := "VentureBeat AI", category := "Tools", color := "#06b6d4" },
    { title := "AWS Launches Custom AI Chips to Reduce Cloud Computing Costs",
      link := "https://arstechnica.com/ai/",
      pubDate := some (now - 32400000),
      description := "The Trainium3 chips promise 50% cost reduction for AI inference workloads compared to traditional GPU-based solutions.",
      source := "Ars Technica AI", category := "Data Centers", color := "#f59e0b" },
    { title := "Stable Diffusion 4 Generates Photorealistic Video From Text Prompts",
      link := "https://techcrunch.com/category/artificial-intelligence/",
      pubDate := some (now - 36000000),
      description := "The new model can produce 60-second high-definition videos with consistent characters and physics-accurate movements.",
      source := "TechCrunch AI", category := "Tools", color := "#10b981" },
    { title := "AI-Powered Drug Discovery Enters Phase 3 Clinical Trials",
      link := "https://www.technologyreview.com/",
      pubDate := some (now - 39600000),
      description := "Insilico Medicine\u0027s AI-designed drug candidate for fibrosis shows promising results, potentially cutting drug development timelines by years.",
      source := "MIT Tech Review", category := "Research", color := "#ec4899" } ]

/-- The observable state of the `useNewsFeeds` hook. -/
structure FetchState where
  articles : List Article
  loading : Bool
  error : Option String
  lastUpdated : Option Int
deriving DecidableEq

/-- The user-facing message set on the exception path of `fetchNews`. -/
def fetchErrorMessage : String :=
  "Could not load live feeds. Showing curated articles."

/-- One run of `fetchNews` as a state transformer. `body` is the outcome of the
`try` block up to and including the `Promise.allSettled` fan-out: `Except.ok`
carries the settled per-source results, `Except.error` models an unexpected
thrown exception. The routine sets `loading := true` and clears `error`,
computes `unique` and substitutes the fallback list when it is empty (or, on
the exception path, sets the error message and the fallback list), updates
`lastUpdated`, and finally sets `loading := false`. -/
def fetchNews (body : Except Unit (List (Settled (List Article)))) (now : Int)
    (s : FetchState) : FetchState :=
  let s1 : FetchState := { s with loading := true, error := none }
  let s2 : FetchState :=
    match body with
    | .ok results =>
      let unique := aggregate results
      { s1 with
        articles := if unique.isEmpty then getFallbackArticles now else unique
        lastUpdated := some now }
    | .error _ =>
      { s1 with
        error := some fetchErrorMessage
        articles := getFallbackArticles now
        lastUpdated := some now }
  { s2 with loading := false }

/-- One per-source task of the `Promise.allSettled` fan-out:
`fetchWithProxy(source.url)` followed by the falsy-body guard
(`if (!xmlText) return []`) and `parseRSSItems`. `net` lists the outcomes of
the proxy attempts for this source. -/
def sourcePipeline (parseXML : String → XMLDoc) (parseDate : String → Option Int)
    (stripHTML : String → String) (now : Int) (source : Source)
    (net : List ProxyResult) : List Article :=
  match fetchWithProxy net with
  | none => []
  | some xmlText =>
    if xmlText.isEmpty then []
    else parseRSSItems parseXML parseDate stripHTML now xmlText source

/-- The settled results of the fan-out over a list of sources, each paired with
its proxy outcomes. Every task fulfills, because `fetchWithProxy` absorbs all
its exceptions and the parser is total. -/
def runPipelines (parseXML : String → XMLDoc) (parseDate : String → Option Int)
    (stripHTML : String → String) (now : Int)
    (inputs : List (Source × List ProxyResult)) : List (Settled (List Article)) :=
  inputs.map fun i => Settled.fulfilled (sourcePipeline parseXML parseDate stripHTML now i.1 i.2)

/-- A whole refresh round on the normal (non-throwing) path: the fan-out over
`inputs` followed by the `fetchNews` merge and state update. -/
def refreshRound (parseXML : String → XMLDoc) (parseDate : String → Option Int)
    (stripHTML : String → String) (nowParse now : Int)
    (inputs : List (Source × List ProxyResult)) (s : FetchState) : FetchState :=
  fetchNews (Except.ok (runPipelines parseXML parseDate stripHTML nowParse inputs)) now s

/-- Test fixture: a generic feed source used in concrete evaluations. -/
def wSource : Source :=
  { name := "Example Feed", url := "https://e.example/rss",
    category := "Industry", color := "#123456" }

/-- Test fixture: an identity HTML stripper, adequate for markup-free text. -/
def wStrip : String → String := fun s => s

/-- Test fixture: a date parser that fails on every input, standing for
`new Date` applied to unparseable text (a JS Invalid Date). -/
def wParseDateFail : String → Option Int := fun _ => none

/-- Test fixture: a date parser that succeeds on every input. -/
def wParseDateTotal : String → Option Int := fun _ => some 3

/-- Test fixture: an RSS item whose pubDate text is present but not a date. -/
def cxItem : RSSItem :=
  { title := some "Quantum chips ship", link := some "https://e.example/a",
    pubDate := some "not-a-date", description := none }

/-- Test fixture: a document holding only `cxItem`. -/
def cxDoc : XMLDoc := { items := [cxItem], entries := [] }

/-- Test fixture: an RSS item with no pubDate and no description element. -/
def wItemNoDate : RSSItem :=
  { title := some "Robots fold laundry", link := some "https://e.example/b",
    pubDate := none, description := none }

/-- Test fixture: a document holding only `wItemNoDate`. -/
def wDocNoDate : XMLDoc := { items := [wItemNoDate], entries := [] }

/-- Test fixture: the article `wItemNoDate` yields when parsed at time 0. -/
def wArtNoDate : Article :=
  { title := "Robots fold laundry", link := "https://e.example/b",
    pubDate := some 0, description := "",
    source := "Example Feed", category := "Industry", color := "#123456" }

/-- Test fixture: a document with one unqualifying RSS item (no link) and one
qualifying Atom entry. -/
def wMixedDoc : XMLDoc :=
  { items := [ { title := some "No link item", link := none,
                 pubDate := none, description := none } ],
    entries := [ { title := some "Atom entry", linkHref := some "https://e.example/c",
                   published := none, updated := none,
                   summary := none, content := none } ] }

/-- Test fixture: a document with nine qualifying RSS items. -/
def wDoc9 : XMLDoc :=
  { items := [ { title := some "t1", link := some "u1", pubDate := none, description := none },
               { title := some "t2", link := some "u2", pubDate := none, description := none },
               { title := some "t3", link := some "u3", pubDate := none, description := none },
               { title := some "t4", link := some "u4", pubDate := none, description := none },
               { title := some "t5", link := some "u5", pubDate := none, description := none },
               { title := some "t6", link := some "u6", pubDate := none, description := none },
               { title := some "t7", link := some "u7", pubDate := none, description := none },
               { title := some "t8", link := some "u8", pubDate := none, description := none },
               { title := some "t9", link := some "u9", pubDate := none, description := none } ],
    entries := [] }

/-- Test fixture: a compact valid article for aggregate-level evaluations. -/
def mkArt (t : String) (d : Int) : Article :=
  { title := t, link := "https://e.example/x", pubDate := some d,
    description := "", source := "Example Feed", category := "Industry",
    color := "#123456" }

/-- Test fixture: a hook state carrying a stale error, to exercise clearing. -/
def wState : FetchState :=
  { articles := [], loading := false, error := some "stale", lastUpdated := none }

/-- Test fixture: settled results with a title collision across sources. -/
def wResults : List (Settled (List Article)) :=
  [ Settled.fulfilled [mkArt "AAA news story" 5, mkArt "aaa NEWS story" 9],
    Settled.fulfilled [mkArt "Beta launch" 7] ]

/-- Test fixture: settled results that aggregate to nothing. -/
def wEmptyResults : List (Settled (List Article)) :=
  [Settled.fulfilled [], Settled.rejected]

/-- Test fixture: proxy outcomes where every attempt fails. -/
def wNetFail : List ProxyResult :=
  [ProxyResult.netError, ProxyResult.notOk]

/-- Test fixture: an XML-parsing table mapping one known body to a one-item
feed and everything else to an empty document. -/
def wParseXMLFix : String → XMLDoc :=
  fun t => if t = "feedA" then wDocNoDate else { items := [], entries := [] }

/-- Test fixture: a source whose single proxy attempt succeeds with the body
`wParseXMLFix` recognizes. -/
def wGoodInput : Source × List ProxyResult :=
  (wSource, [ProxyResult.ok "feedA"])

/-- Truthiness of a present string means exactly that it is non-empty. -/
theorem truthy_some_iff (s : String) : truthy (some s) = true ↔ s ≠ "" := by
  constructor
  · intro h heq
    subst heq
    exact absurd h (by decide)
  · intro h
    simp only [truthy, Bool.not_eq_true']
    cases heq : s.isEmpty with
    | false => rfl
    | true => exact absurd ((String.isEmpty_iff s).mp heq) h

/-- A truthy optional string extracts to a non-empty string. -/
theorem truthy_getD (o : Option String) (h : truthy o = true) : o.getD "" ≠ "" := by
  cases o with
  | none => simp [truthy] at h
  | some s => simpa using (truthy_some_iff s).mp h

/-- Characterization of a successful RSS-item conversion: both required fields
are truthy and the produced article is the pushed record. -/
theorem rssItemToArticle_some {pd : String → Option Int} {strip : String → String}
    {now : Int} {src : Source} {item : RSSItem} {art : Article}
    (h : rssItemToArticle pd strip now src item = some art) :
    truthy item.title = true ∧ truthy item.link = true ∧
    art.title = item.title.getD "" ∧ art.link = item.link.getD "" ∧
    art.pubDate = (if truthy item.pubDate then pd (item.pubDate.getD "") else some now) := by
  unfold rssItemToArticle at h
  split at h
  case isTrue hcond =>
    rw [Bool.and_eq_true] at hcond
    obtain ⟨h1, h2⟩ := hcond
    simp only [Option.some.injEq] at h
    subst h
    exact ⟨h1, h2, rfl, rfl, rfl⟩
  case isFalse => cases h

/-- Characterization of a successful Atom-entry conversion. -/
theorem atomEntryToArticle_some {pd : String → Option Int} {strip : String → String}
    {now : Int} {src : Source} {ent : AtomEntry} {art : Article}
    (h : atomEntryToArticle pd strip now src ent = some art) :
    truthy ent.title = true ∧ truthy ent.linkHref = true ∧
    art.title = ent.title.getD "" ∧ art.link = ent.linkHref.getD "" ∧
    art.pubDate = (if truthy (jsOr ent.published ent.updated)
                   then pd ((jsOr ent.published ent.updated).getD "")
                   else some now) := by
  unfold atomEntryToArticle at h
  split at h
  case isTrue hcond =>
    rw [Bool.and_eq_true] at hcond
    obtain ⟨h1, h2⟩ := hcond
    simp only [Option.some.injEq] at h
    subst h
    exact ⟨h1, h2, rfl, rfl, rfl⟩
  case isFalse => cases h

/-- Unfolding of the parser into its two qualifying-article branches. -/
theorem parseRSSItems_eq (pX : String → XMLDoc) (pd : String → Option Int)
    (strip : String → String) (now : Int) (xmlText : String) (src : Source) :
    parseRSSItems pX pd strip now xmlText src =
      (if (rssArticles pd strip now src (pX xmlText).items).isEmpty
       then atomArticles pd strip now src (pX xmlText).entries
       else rssArticles pd strip now src (pX xmlText).items).take 8 := rfl

/-- Every article of the parser output arises from one of the two loops. -/
theorem mem_parseRSSItems {pX : String → XMLDoc} {pd : String → Option Int}
    {strip : String → String} {now : Int} {xmlText : String} {src : Source}
    {art : Article} (h : art ∈ parseRSSItems pX pd strip now xmlText src) :
    (∃ item ∈ (pX xmlText).items, rssItemToArticle pd strip now src item = some art)
    ∨ (∃ ent ∈ (pX xmlText).entries, atomEntryToArticle pd strip now src ent = some art) := by
  rw [parseRSSItems_eq] at h
  have h' := (List.take_sublist 8 _).subset h
  split at h'
  case isTrue =>
    right
    exact List.mem_filterMap.mp h'
  case isFalse =>
    left
    exact List.mem_filterMap.mp h'

/-- Slicing the empty string yields the empty string. -/
theorem jsSlice_empty (n : Nat) : jsSlice n "" = "" := by
  simp [jsSlice]

/-- Claim C1, corrected: for every item or entry parsed by the Feed Parser,
if the publish timestamp text is missing or empty the emitted publishedAt is
the moment of parsing; otherwise publishedAt is the result of date-parsing the
present non-empty text, which may be an invalid timestamp when that text is
unparseable. -/
theorem c1_timestamp_default :
    ∀ (pX : String → XMLDoc) (pd : String → Option Int) (strip : String → String)
      (now : Int) (xmlText : String) (src : Source),
      (∀ item ∈ (pX xmlText).items, truthy item.pubDate = false →
        ∀ art, rssItemToArticle pd strip now src item = some art → art.pubDate = some now)
    ∧ (∀ ent ∈ (pX xmlText).entries, truthy (jsOr ent.published ent.updated) = false →
        ∀ art, atomEntryToArticle pd strip now src ent = some art → art.pubDate = some now)
    ∧ (∀ art ∈ parseRSSItems pX pd strip now xmlText src,
        art.pubDate = some now ∨ ∃ s, s ≠ "" ∧ art.pubDate = pd s) := by
  intro pX pd strip now xmlText src
  refine ⟨?_, ?_, ?_⟩
  · intro item _ hfalse art hart
    have h5 := (rssItemToArticle_some hart).2.2.2.2
    rw [hfalse] at h5
    simpa using h5
  · intro ent _ hfalse art hart
    have h5 := (atomEntryToArticle_some hart).2.2.2.2
    rw [hfalse] at h5
    simpa using h5
  · intro art hart
    rcases mem_parseRSSItems hart with ⟨item, _, heq⟩ | ⟨ent, _, heq⟩
    · have h5 := (rssItemToArticle_some heq).2.2.2.2
      cases htr : truthy item.pubDate with
      | false =>
        left
        rw [htr] at h5
        simpa using h5
      | true =>
        right
        refine ⟨item.pubDate.getD "", truthy_getD _ htr, ?_⟩
        rw [htr] at h5
        simpa using h5
    · have h5 := (atomEntryToArticle_some heq).2.2.2.2
      cases htr : truthy (jsOr ent.published ent.updated) with
      | false =>
        left
        rw [htr] at h5
        simpa using h5
      | true =>
        right
        refine ⟨(jsOr ent.published ent.updated).getD "", truthy_getD _ htr, ?_⟩
        rw [htr] at h5
        simpa using h5

/-- Counterexample for claim C1 as stated: an item whose pubDate text is
present but unparseable is emitted with an invalid timestamp (`none`), not
with the moment of parsing. -/
theorem c1_counterexample :
    (parseRSSItems (fun _ => cxDoc) wParseDateFail wStrip 0 "feed" wSource).map
      Article.pubDate = [none] := by
  decide

/-- Witness for claim C1: a concrete item with no pubDate element is emitted with
publishedAt equal to the moment of parsing. -/
theorem c1_timestamp_default_witness :
    truthy wItemNoDate.pubDate = false
    ∧ rssItemToArticle wParseDateFail wStrip 0 wSource wItemNoDate = some wArtNoDate
    ∧ wArtNoDate.pubDate = some 0 :=
  ⟨rfl, by decide,
   (c1_timestamp_default (fun _ => wDocNoDate) wParseDateFail wStrip 0 "x" wSource).1
     wItemNoDate (by decide) rfl wArtNoDate (by decide)⟩

/-- Claim C6: the Feed Parser returns at most 8 articles; when the RSS loop pushed a
non-empty qualifying list, the output is exactly the first 8 qualifying items
in source order (an initial segment of the qualifying list, of length exactly 8
whenever at least 8 items qualify). -/
theorem c6_parser_cap :
    ∀ (pX : String → XMLDoc) (pd : String → Option Int) (strip : String → String)
      (now : Int) (xmlText : String) (src : Source),
      (parseRSSItems pX pd strip now xmlText src).length ≤ 8
    ∧ (rssArticles pd strip now src (pX xmlText).items ≠ [] →
        parseRSSItems pX pd strip now xmlText src
          = (rssArticles pd strip now src (pX xmlText).items).take 8
        ∧ ∃ rest, rssArticles pd strip now src (pX xmlText).items
            = parseRSSItems pX pd strip now xmlText src ++ rest)
    ∧ (8 ≤ (rssArticles pd strip now src (pX xmlText).items).length →
        (parseRSSItems pX pd strip now xmlText src).length = 8)
    ∧ (rssArticles pd strip now src (pX xmlText).items = [] →
        parseRSSItems pX pd strip now xmlText src
          = (atomArticles pd strip now src (pX xmlText).entries).take 8
        ∧ (8 ≤ (atomArticles pd strip now src (pX xmlText).entries).length →
            (parseRSSItems pX pd strip now xmlText src).length = 8)) := by
  intro pX pd strip now xmlText src
  refine ⟨?_, ?_, ?_, ?_⟩
  · rw [parseRSSItems_eq]
    simp only [List.length_take]
    exact Nat.min_le_left _ _
  · intro hne
    have hF : (rssArticles pd strip now src (pX xmlText).items).isEmpty = false := by
      simp [List.isEmpty_iff, hne]
    constructor
    · rw [parseRSSItems_eq, hF]
      simp
    · refine ⟨(rssArticles pd strip now src (pX xmlText).items).drop 8, ?_⟩
      rw [parseRSSItems_eq, hF]
      simp [List.take_append_drop]
  · intro hlen
    have hne : rssArticles pd strip now src (pX xmlText).items ≠ [] := by
      intro h
      rw [h] at hlen
      simp at hlen
    have hF : (rssArticles pd strip now src (pX xmlText).items).isEmpty = false := by
      simp [List.isEmpty_iff, hne]
    rw [parseRSSItems_eq, hF]
    simp only [Bool.false_eq_true, if_false, List.length_take]
    omega
  · intro hrss
    have hT : (rssArticles pd strip now src (pX xmlText).items).isEmpty = true := by
      simp [List.isEmpty_iff, hrss]
    constructor
    · rw [parseRSSItems_eq, hT]
      simp
    · intro hlen
      rw [parseRSSItems_eq, hT]
      simp only [if_true, List.length_take]
      omega

/-- Witness for claim C6: on a document with nine qualifying RSS items the parser
returns exactly 8 articles. -/
theorem c6_parser_cap_witness :
    8 ≤ (rssArticles wParseDateTotal wStrip 0 wSource wDoc9.items).length
    ∧ (parseRSSItems (fun _ => wDoc9) wParseDateTotal wStrip 0 "x" wSource).length = 8 :=
  ⟨by decide,
   (c6_parser_cap (fun _ => wDoc9) wParseDateTotal wStrip 0 "x" wSource).2.2.1 (by decide)⟩

/-- Truthiness of an absent string is false. -/
theorem truthy_none : truthy none = false := rfl

/-- Claim C7: an item or entry missing its title or its link is excluded from the
parser output; one with title and link but no description (or, for Atom, no
summary and no content) is included with an empty description; and every
emitted article has a non-empty title and a non-empty link. -/
theorem c7_required_fields :
    ∀ (pd : String → Option Int) (strip : String → String) (now : Int) (src : Source),
      strip "" = "" →
      (∀ item : RSSItem, (truthy item.title = false ∨ truthy item.link = false) →
          rssItemToArticle pd strip now src item = none)
    ∧ (∀ ent : AtomEntry, (truthy ent.title = false ∨ truthy ent.linkHref = false) →
          atomEntryToArticle pd strip now src ent = none)
    ∧ (∀ item : RSSItem, truthy item.title = true → truthy item.link = true →
          item.description = none →
          rssItemToArticle pd strip now src item
            = some { title := item.title.getD "", link := item.link.getD "",
                     pubDate := if truthy item.pubDate then pd (item.pubDate.getD "")
                                else some now,
                     description := "", source := src.name, category := src.category,
                     color := src.color })
    ∧ (∀ ent : AtomEntry, truthy ent.title = true → truthy ent.linkHref = true →
          ent.summary = none → ent.content = none →
          atomEntryToArticle pd strip now src ent
            = some { title := ent.title.getD "", link := ent.linkHref.getD "",
                     pubDate := if truthy (jsOr ent.published ent.updated)
                                then pd ((jsOr ent.published ent.updated).getD "")
                                else some now,
                     description := "", source := src.name, category := src.category,
                     color := src.color })
    ∧ (∀ (pX : String → XMLDoc) (xmlText : String),
          ∀ art ∈ parseRSSItems pX pd strip now xmlText src,
            art.title ≠ "" ∧ art.link ≠ "") := by
  intro pd strip now src hstrip
  refine ⟨?_, ?_, ?_, ?_, ?_⟩
  · intro item h
    rcases h with h | h <;> simp [rssItemToArticle, h]
  · intro ent h
    rcases h with h | h <;> simp [atomEntryToArticle, h]
  · intro item h1 h2 hdesc
    simp [rssItemToArticle, h1, h2, hdesc, jsOrEmpty, truthy_none, hstrip, jsSlice_empty]
  · intro ent h1 h2 hsum hcont
    simp [atomEntryToArticle, h1, h2, hsum, hcont, jsOr, jsOrEmpty, truthy_none, hstrip,
      jsSlice_empty]
  · intro pX xmlText art hart
    rcases mem_parseRSSItems hart with ⟨item, _, heq⟩ | ⟨ent, _, heq⟩
    · obtain ⟨h1, h2, ht, hl, _⟩ := rssItemToArticle_some heq
      rw [ht, hl]
      exact ⟨truthy_getD _ h1, truthy_getD _ h2⟩
    · obtain ⟨h1, h2, ht, hl, _⟩ := atomEntryToArticle_some heq
      rw [ht, hl]
      exact ⟨truthy_getD _ h1, truthy_getD _ h2⟩

/-- Witness for claim C7: a concrete item with title and link but no description element
is emitted with an empty description. -/
theorem c7_required_fields_witness :
    wStrip "" = ""
    ∧ rssItemToArticle wParseDateFail wStrip 0 wSource wItemNoDate = some wArtNoDate :=
  ⟨rfl,
   (c7_required_fields wParseDateFail wStrip 0 wSource rfl).2.2.1
     wItemNoDate rfl rfl rfl⟩

/-- Claim C10: the parser uses the Atom loop exactly when the RSS loop pushed zero
qualifying articles (also when item elements exist but none qualifies), so the
output is an initial segment of a single dialect's qualifying list — entirely
RSS-derived or entirely Atom-derived. -/
theorem c10_dialect :
    ∀ (pX : String → XMLDoc) (pd : String → Option Int) (strip : String → String)
      (now : Int) (xmlText : String) (src : Source),
      (rssArticles pd strip now src (pX xmlText).items = [] →
          parseRSSItems pX pd strip now xmlText src
            = (atomArticles pd strip now src (pX xmlText).entries).take 8)
    ∧ (rssArticles pd strip now src (pX xmlText).items ≠ [] →
          parseRSSItems pX pd strip now xmlText src
            = (rssArticles pd strip now src (pX xmlText).items).take 8)
    ∧ ((∀ art ∈ parseRSSItems pX pd strip now xmlText src,
          art ∈ rssArticles pd strip now src (pX xmlText).items)
       ∨ (∀ art ∈ parseRSSItems pX pd strip now xmlText src,
          art ∈ atomArticles pd strip now src (pX xmlText).entries)) := by
  intro pX pd strip now xmlText src
  refine ⟨?_, ?_, ?_⟩
  · intro hrss
    rw [parseRSSItems_eq, hrss]
    simp
  · intro hrss
    have hF : (rssArticles pd strip now src (pX xmlText).items).isEmpty = false := by
      simp [List.isEmpty_iff, hrss]
    rw [parseRSSItems_eq, hF]
    simp
  · cases hemp : (rssArticles pd strip now src (pX xmlText).items).isEmpty with
    | true =>
      right
      intro art hart
      rw [parseRSSItems_eq, hemp] at hart
      simp only [if_true] at hart
      exact (List.take_sublist 8 _).subset hart
    | false =>
      left
      intro art hart
      rw [parseRSSItems_eq, hemp] at hart
      simp only [Bool.false_eq_true, if_false] at hart
      exact (List.take_sublist 8 _).subset hart

/-- Witness for claim C10: on a document with one unqualifying RSS item (no link) and
one qualifying Atom entry, the output is the Atom-derived list. -/
theorem c10_dialect_witness :
    rssArticles wParseDateTotal wStrip 0 wSource wMixedDoc.items = []
    ∧ parseRSSItems (fun _ => wMixedDoc) wParseDateTotal wStrip 0 "x" wSource
        = (atomArticles wParseDateTotal wStrip 0 wSource wMixedDoc.entries).take 8 :=
  ⟨by decide,
   (c10_dialect (fun _ => wMixedDoc) wParseDateTotal wStrip 0 "x" wSource).1 (by decide)⟩

/-- Claim C8: the proxy fetcher returns the body of the first proxy whose response
is HTTP 2xx, regardless of what comes after it (it short-circuits), and
returns null when every proxy attempt fails; no exception escapes — the
function is total with `Option` result. -/
theorem c8_proxy :
    ∀ (pre rest : List ProxyResult) (b : String) (l : List ProxyResult),
      ((∀ r ∈ pre, r.isOk = false) →
        fetchWithProxy (pre ++ ProxyResult.ok b :: rest) = some b)
    ∧ ((∀ r ∈ l, r.isOk = false) → fetchWithProxy l = none) := by
  intro pre rest b l
  constructor
  · induction pre with
    | nil => intro _; rfl
    | cons r tail ih =>
      intro hpre
      have hr := hpre r (List.mem_cons_self r tail)
      have htail : ∀ x ∈ tail, x.isOk = false := fun x hx =>
        hpre x (List.mem_cons_of_mem r hx)
      cases r with
      | ok body => simp [ProxyResult.isOk] at hr
      | notOk => simpa only [List.cons_append, fetchWithProxy] using ih htail
      | netError => simpa only [List.cons_append, fetchWithProxy] using ih htail
  · induction l with
    | nil => intro _; rfl
    | cons r tail ih =>
      intro hl
      have hr := hl r (List.mem_cons_self r tail)
      have htail : ∀ x ∈ tail, x.isOk = false := fun x hx =>
        hl x (List.mem_cons_of_mem r hx)
      cases r with
      | ok body => simp [ProxyResult.isOk] at hr
      | notOk => simpa only [fetchWithProxy] using ih htail
      | netError => simpa only [fetchWithProxy] using ih htail

/-- Witness for claim C8: with two failing attempts before a 2xx one, the fetcher
returns that first 2xx body; with only failing attempts, it returns null. -/
theorem c8_proxy_witness :
    fetchWithProxy [ProxyResult.netError, ProxyResult.notOk,
      ProxyResult.ok "body", ProxyResult.ok "late"] = some "body"
    ∧ fetchWithProxy [ProxyResult.notOk, ProxyResult.netError] = none :=
  ⟨(c8_proxy [ProxyResult.netError, ProxyResult.notOk] [ProxyResult.ok "late"] "body" []).1
      (by decide),
   (c8_proxy [] [] "" [ProxyResult.notOk, ProxyResult.netError]).2 (by decide)⟩

/-- A strictly-later timestamp is also weakly later. -/
theorem dateGeB_of_dateGtB {u v : Option Int} (h : dateGtB u v = true) :
    dateGeB u v = true := by
  cases u with
  | none => simp [dateGtB] at h
  | some x =>
    cases v with
    | none => simp [dateGtB] at h
    | some y =>
      simp only [dateGtB, decide_eq_true_eq] at h
      simp only [dateGeB, decide_eq_true_eq]
      omega

/-- For two valid timestamps, failing to sort strictly before means being
weakly later. -/
theorem dateGeB_of_not_gt {u v : Option Int} (hu : u.isSome) (hv : v.isSome)
    (h : dateGtB v u = false) : dateGeB u v = true := by
  cases u with
  | none => cases hu
  | some x =>
    cases v with
    | none => cases hv
    | some y =>
      simp only [dateGtB, decide_eq_false_iff_not] at h
      simp only [dateGeB, decide_eq_true_eq]
      omega

/-- Weak descending order of valid timestamps is transitive. -/
theorem dateGeB_trans {u v w : Option Int} (h1 : dateGeB u v = true)
    (h2 : dateGeB v w = true) : dateGeB u w = true := by
  cases u with
  | none => simp [dateGeB] at h1
  | some x =>
    cases v with
    | none => simp [dateGeB] at h1
    | some y =>
      cases w with
      | none => simp [dateGeB] at h2
      | some z =>
        simp only [dateGeB, decide_eq_true_eq] at h1 h2 ⊢
        omega

/-- Membership through the insertion step of the descending sort. -/
theorem mem_insertByDateDesc {x a : Article} {l : List Article} :
    x ∈ insertByDateDesc a l ↔ x = a ∨ x ∈ l := by
  induction l with
  | nil => simp [insertByDateDesc]
  | cons b rest ih =>
    unfold insertByDateDesc
    split
    · simp only [List.mem_cons, ih]
      tauto
    · simp [List.mem_cons]

/-- The descending sort is a permutation at the level of membership. -/
theorem mem_sortByDateDesc {x : Article} {l : List Article} :
    x ∈ sortByDateDesc l ↔ x ∈ l := by
  induction l with
  | nil => simp [sortByDateDesc]
  | cons a rest ih => simp [sortByDateDesc, mem_insertByDateDesc, ih]

/-- Inserting a valid-timestamp article into a weakly-descending list of
valid-timestamp articles keeps the list weakly descending. -/
theorem pairwise_insertByDateDesc {a : Article} {l : List Article}
    (hva : a.pubDate.isSome = true) (hvl : ∀ x ∈ l, x.pubDate.isSome = true)
    (hl : l.Pairwise (fun x y => dateGeB x.pubDate y.pubDate = true)) :
    (insertByDateDesc a l).Pairwise (fun x y => dateGeB x.pubDate y.pubDate = true) := by
  induction l with
  | nil => simp [insertByDateDesc]
  | cons b rest ih =>
    obtain ⟨hb, hrest⟩ := List.pairwise_cons.mp hl
    have hvb : b.pubDate.isSome = true := hvl b (List.mem_cons_self b rest)
    have hvrest : ∀ x ∈ rest, x.pubDate.isSome = true := fun x hx =>
      hvl x (List.mem_cons_of_mem b hx)
    unfold insertByDateDesc
    split
    case isTrue hgt =>
      refine List.pairwise_cons.mpr ⟨?_, ih hvrest hrest⟩
      intro c hc
      rcases mem_insertByDateDesc.mp hc with rfl | hc'
      · exact dateGeB_of_dateGtB hgt
      · exact hb c hc'
    case isFalse hng =>
      refine List.pairwise_cons.mpr ⟨?_, hl⟩
      intro c hc
      rcases List.mem_cons.mp hc with rfl | hc'
      · exact dateGeB_of_not_gt hva hvb (Bool.eq_false_iff.mpr hng)
      · exact dateGeB_trans (dateGeB_of_not_gt hva hvb (Bool.eq_false_iff.mpr hng)) (hb c hc')

/-- The descending sort of a list of valid-timestamp articles is weakly
descending in publish time. -/
theorem pairwise_sortByDateDesc {l : List Article}
    (hv : ∀ x ∈ l, x.pubDate.isSome = true) :
    (sortByDateDesc l).Pairwise (fun x y => dateGeB x.pubDate y.pubDate = true) := by
  induction l with
  | nil => simp [sortByDateDesc]
  | cons a rest ih =>
    have hva : a.pubDate.isSome = true := hv a (List.mem_cons_self a rest)
    have hvrest : ∀ x ∈ rest, x.pubDate.isSome = true := fun x hx =>
      hv x (List.mem_cons_of_mem a hx)
    exact pairwise_insertByDateDesc hva
      (fun x hx => hvrest x (mem_sortByDateDesc.mp hx)) (ih hvrest)

/-- The deduplication pass yields a subsequence of its input. -/
theorem dedupeAux_sublist (l : List Article) :
    ∀ seen, List.Sublist (dedupeAux seen l) l := by
  induction l with
  | nil => intro seen; simp [dedupeAux]
  | cons a rest ih =>
    intro seen
    unfold dedupeAux
    split
    · exact (ih seen).trans (List.sublist_cons_self a rest)
    · exact List.Sublist.cons₂ a (ih _)

/-- No key of the deduplicated output was already in the seen set. -/
theorem dedupeAux_key_not_seen (l : List Article) :
    ∀ seen, ∀ x ∈ dedupeAux seen l, dedupeKey x ∉ seen := by
  induction l with
  | nil =>
    intro seen x hx
    simp [dedupeAux] at hx
  | cons a rest ih =>
    intro seen x hx
    unfold dedupeAux at hx
    split at hx
    case isTrue => exact ih seen x hx
    case isFalse hnot =>
      rcases List.mem_cons.mp hx with rfl | hx'
      · exact hnot
      · intro hcontra
        exact ih _ x hx' (List.mem_cons_of_mem _ hcontra)

/-- The deduplicated output has pairwise distinct keys. -/
theorem dedupeAux_pairwise (l : List Article) :
    ∀ seen, (dedupeAux seen l).Pairwise (fun x y => dedupeKey x ≠ dedupeKey y) := by
  induction l with
  | nil => intro seen; simp [dedupeAux]
  | cons a rest ih =>
    intro seen
    unfold dedupeAux
    split
    · exact ih seen
    · refine List.pairwise_cons.mpr ⟨?_, ih _⟩
      intro y hy heq
      exact dedupeAux_key_not_seen rest _ y hy
        (heq ▸ List.mem_cons_self (dedupeKey a) seen)

/-- For a key not yet seen, the first article with that key in the
deduplicated output is the first article with that key in the input. -/
theorem dedupeAux_find? (l : List Article) :
    ∀ seen (k : String), k ∉ seen →
      (dedupeAux seen l).find? (fun a => dedupeKey a == k)
        = l.find? (fun a => dedupeKey a == k) := by
  induction l with
  | nil => intro _ _ _; rfl
  | cons a rest ih =>
    intro seen k hk
    unfold dedupeAux
    split
    case isTrue hseen =>
      have hkey : dedupeKey a ≠ k := fun heq => hk (heq ▸ hseen)
      have hfalse : (dedupeKey a == k) = false := by
        cases hbeq : (dedupeKey a == k) with
        | true => exact absurd (beq_iff_eq.mp hbeq) hkey
        | false => rfl
      simp only [List.find?_cons, hfalse]
      exact ih seen k hk
    case isFalse hseen =>
      cases hbeq : (dedupeKey a == k) with
      | true => simp only [List.find?_cons, hbeq]
      | false =>
        simp only [List.find?_cons, hbeq]
        refine ih _ k ?_
        intro hmem
        rcases List.mem_cons.mp hmem with heqk | hmem'
        · rw [beq_eq_false_iff_ne] at hbeq
          exact hbeq heqk.symm
        · exact hk hmem'

/-- The static fallback list is already sorted by publish time descending. -/
theorem fallback_sorted (now : Int) :
    (getFallbackArticles now).Pairwise
      (fun x y => dateGeB x.pubDate y.pubDate = true) := by
  haveI : IsTrans Article (fun x y => dateGeB x.pubDate y.pubDate = true) :=
    ⟨fun _ _ _ => dateGeB_trans⟩
  rw [← List.chain'_iff_pairwise]
  simp only [getFallbackArticles, List.chain'_cons, List.chain'_singleton,
    dateGeB, decide_eq_true_eq, and_true]
  omega

/-- The articles field after a normal (non-throwing) fetch round. -/
theorem fetchNews_ok_articles (results : List (Settled (List Article)))
    (now : Int) (s : FetchState) :
    (fetchNews (Except.ok results) now s).articles
      = if (aggregate results).isEmpty then getFallbackArticles now
        else aggregate results := rfl

/-- The error and lastUpdated fields after a normal fetch round, and the final
loading flag. -/
theorem fetchNews_ok_state (results : List (Settled (List Article)))
    (now : Int) (s : FetchState) :
    (fetchNews (Except.ok results) now s).error = none
    ∧ (fetchNews (Except.ok results) now s).lastUpdated = some now
    ∧ (fetchNews (Except.ok results) now s).loading = false :=
  ⟨rfl, rfl, rfl⟩

/-- Claim C2: when the deduplicated aggregate is empty, the fetch round stores
exactly the static fallback list (at least 10 pre-authored articles), clears
the user-facing error, and still updates lastUpdated — never a mix of live
and fallback articles. -/
theorem c2_empty_fallback :
    ∀ (results : List (Settled (List Article))) (now : Int) (s : FetchState),
      aggregate results = [] →
      (fetchNews (Except.ok results) now s).articles = getFallbackArticles now
    ∧ (fetchNews (Except.ok results) now s).error = none
    ∧ (fetchNews (Except.ok results) now s).lastUpdated = some now
    ∧ 10 ≤ (getFallbackArticles now).length := by
  intro results now s h
  refine ⟨?_, rfl, rfl, by norm_num [getFallbackArticles]⟩
  rw [fetchNews_ok_articles, h]
  simp

/-- Witness for claim C2: concrete settled results that aggregate to nothing produce
exactly the fallback list. -/
theorem c2_empty_fallback_witness :
    aggregate wEmptyResults = []
    ∧ (fetchNews (Except.ok wEmptyResults) 0 wState).articles = getFallbackArticles 0 :=
  ⟨by decide, (c2_empty_fallback wEmptyResults 0 wState (by decide)).1⟩

/-- Claim C4: after a refresh with a live (non-fallback) result, no two stored
articles share the lowercase 50-character title key, and for every key the
retained representative is the first (earliest, hence most recent after the
descending sort) article with that key in the sorted sequence. -/
theorem c4_dedup_key :
    ∀ (results : List (Settled (List Article))) (now : Int) (s : FetchState),
      aggregate results ≠ [] →
      (fetchNews (Except.ok results) now s).articles.Pairwise
        (fun x y => dedupeKey x ≠ dedupeKey y)
    ∧ ∀ k : String,
        (fetchNews (Except.ok results) now s).articles.find? (fun a => dedupeKey a == k)
          = (allArticlesOf results).find? (fun a => dedupeKey a == k) := by
  intro results now s h
  have hF : (aggregate results).isEmpty = false := by
    simp [List.isEmpty_iff, h]
  have harts : (fetchNews (Except.ok results) now s).articles = aggregate results := by
    rw [fetchNews_ok_articles, hF]
    simp
  rw [harts]
  constructor
  · exact dedupeAux_pairwise (allArticlesOf results) []
  · intro k
    exact dedupeAux_find? (allArticlesOf results) [] k (List.not_mem_nil k)

/-- Witness for claim C4: with a concrete title collision, the stored list keeps the
more recent colliding article as the representative of its key. -/
theorem c4_dedup_key_witness :
    aggregate wResults ≠ []
    ∧ (fetchNews (Except.ok wResults) 0 wState).articles.find?
        (fun a => dedupeKey a == "aaa news story")
        = (allArticlesOf wResults).find? (fun a => dedupeKey a == "aaa news story") :=
  ⟨by decide, (c4_dedup_key wResults 0 wState (by decide)).2 "aaa news story"⟩

/-- Claim C5: when every fulfilled article carries a valid timestamp, the article
list stored by a fetch round is non-increasing in publishedAt from first to
last (this also holds on the fallback branch, whose list is pre-sorted). -/
theorem c5_sorted_desc :
    ∀ (results : List (Settled (List Article))) (now : Int) (s : FetchState),
      (collectFulfilled results).flatten.all (fun a => a.pubDate.isSome) = true →
      (fetchNews (Except.ok results) now s).articles.Pairwise
        (fun x y => dateGeB x.pubDate y.pubDate = true) := by
  intro results now s hall
  have hv : ∀ x ∈ (collectFulfilled results).flatten, x.pubDate.isSome = true := by
    intro x hx
    exact List.all_eq_true.mp hall x hx
  rw [fetchNews_ok_articles]
  cases hemp : (aggregate results).isEmpty with
  | true =>
    simp only [hemp, if_true]
    exact fallback_sorted now
  | false =>
    simp only [hemp, Bool.false_eq_true, if_false]
    exact List.Pairwise.sublist (dedupeAux_sublist (allArticlesOf results) [])
      (pairwise_sortByDateDesc hv)

/-- Witness for claim C5: a concrete three-article round is stored in non-increasing
publish-time order. -/
theorem c5_sorted_desc_witness :
    (collectFulfilled wResults).flatten.all (fun a => a.pubDate.isSome) = true
    ∧ (fetchNews (Except.ok wResults) 0 wState).articles.Pairwise
        (fun x y => dateGeB x.pubDate y.pubDate = true) :=
  ⟨by decide, c5_sorted_desc wResults 0 wState (by decide)⟩

/-- Claim C9: on the exception path the fetch routine sets the user-facing error
message, substitutes the fallback list, and still updates lastUpdated; and on
every path (success or failure) loading ends up false. -/
theorem c9_error_path :
    ∀ (e : Unit) (now : Int) (s : FetchState),
      (fetchNews (Except.error e) now s).error = some fetchErrorMessage
    ∧ (fetchNews (Except.error e) now s).articles = getFallbackArticles now
    ∧ (fetchNews (Except.error e) now s).lastUpdated = some now
    ∧ (fetchNews (Except.error e) now s).loading = false
    ∧ ∀ body : Except Unit (List (Settled (List Article))),
        (fetchNews body now s).loading = false := by
  intro e now s
  refine ⟨rfl, rfl, rfl, rfl, ?_⟩
  intro body
  cases body with
  | ok results => rfl
  | error e2 => rfl

/-- Exhausting every proxy yields the null result. -/
theorem fetchWithProxy_all_fail (net : List ProxyResult) :
    (∀ r ∈ net, r.isOk = false) → fetchWithProxy net = none := by
  induction net with
  | nil => intro _; rfl
  | cons r tail ih =>
    intro h
    have hr := h r (List.mem_cons_self r tail)
    have htail : ∀ x ∈ tail, x.isOk = false := fun x hx =>
      h x (List.mem_cons_of_mem r hx)
    cases r with
    | ok body => simp [ProxyResult.isOk] at hr
    | notOk => simpa only [fetchWithProxy] using ih htail
    | netError => simpa only [fetchWithProxy] using ih htail

/-- Claim C3: a source whose every proxy attempt fails contributes an empty list;
the aggregate over all sources is the same as if that source were absent; and
when the remaining sources aggregate to something non-empty, the stored list
is that live aggregate, not the fallback list. -/
theorem c3_failure_isolation :
    ∀ (pX : String → XMLDoc) (pd : String → Option Int) (strip : String → String)
      (nowP now : Int) (s : FetchState) (src0 : Source) (net0 : List ProxyResult)
      (pre post : List (Source × List ProxyResult)),
      (∀ r ∈ net0, r.isOk = false) →
      sourcePipeline pX pd strip nowP src0 net0 = []
    ∧ aggregate (runPipelines pX pd strip nowP (pre ++ (src0, net0) :: post))
        = aggregate (runPipelines pX pd strip nowP (pre ++ post))
    ∧ (aggregate (runPipelines pX pd strip nowP (pre ++ post)) ≠ [] →
        (refreshRound pX pd strip nowP now (pre ++ (src0, net0) :: post) s).articles
          = aggregate (runPipelines pX pd strip nowP (pre ++ post))) := by
  intro pX pd strip nowP now s src0 net0 pre post hfail
  have h1 : sourcePipeline pX pd strip nowP src0 net0 = [] := by
    unfold sourcePipeline
    rw [fetchWithProxy_all_fail net0 hfail]
  have hflat : (collectFulfilled (runPipelines pX pd strip nowP
        (pre ++ (src0, net0) :: post))).flatten
      = (collectFulfilled (runPipelines pX pd strip nowP (pre ++ post))).flatten := by
    simp [runPipelines, collectFulfilled, List.map_append, List.filterMap_append,
      List.flatten_append, h1]
  have h2 : aggregate (runPipelines pX pd strip nowP (pre ++ (src0, net0) :: post))
      = aggregate (runPipelines pX pd strip nowP (pre ++ post)) := by
    unfold aggregate allArticlesOf
    rw [hflat]
  refine ⟨h1, h2, ?_⟩
  intro hne
  unfold refreshRound
  rw [fetchNews_ok_articles, h2]
  have hF : (aggregate (runPipelines pX pd strip nowP (pre ++ post))).isEmpty = false := by
    simp [List.isEmpty_iff, hne]
  rw [hF]
  simp

/-- Witness for claim C3: with one all-failing source next to one succeeding source, the
failing source contributes nothing and the stored list equals the live
aggregate of the succeeding source alone. -/
theorem c3_failure_isolation_witness :
    sourcePipeline wParseXMLFix wParseDateTotal wStrip 0 wSource wNetFail = []
    ∧ (refreshRound wParseXMLFix wParseDateTotal wStrip 0 0
          ([wGoodInput] ++ (wSource, wNetFail) :: []) wState).articles
        = aggregate (runPipelines wParseXMLFix wParseDateTotal wStrip 0
            ([wGoodInput] ++ [])) :=
  ⟨(c3_failure_isolation wParseXMLFix wParseDateTotal wStrip 0 0 wState wSource wNetFail
      [wGoodInput] [] (by decide)).1,
   (c3_failure_isolation wParseXMLFix wParseDateTotal wStrip 0 0 wState wSource wNetFail
      [wGoodInput] [] (by decide)).2.2 (by decide)⟩
